import Mathlib

/-!
# Verification of the cog-ir core against its specification

Shallow embedding of the cog-ir library (an SSA IR builder/encoder/reader
written in Rust) into Lean 4, together with theorems settling the frozen
claims about it.

Conventions of the embedding:

* Machine integers (`u8`, `u32`, `u64`, `usize`) are modelled as `Nat`;
  where overflow of a `u64` accumulator is possible the accumulation step
  reduces modulo `2 ^ 64` explicitly.
* Byte buffers (`Vec<u8>`) are `List Nat`, each element a byte value.
* A Rust `panic!`/`assert!` (fatal contract violation) is modelled as an
  absent result (`Option.none` or an explicit `fatal` outcome); a
  `debug_assert!` is compiled out in release builds and is not modelled.
* A `ByteSource` read past the end of the data is undefined behaviour in
  the source (`get_unchecked`); the embedding totalises those reads by
  returning 0 bytes read / a default byte, and no theorem evaluates a
  decoder outside the bytes its encoder produced.
-/

namespace CogIr

/-! ## LEB128 codec (src/leb128.rs)

`write_leb128u` appends one byte per 7-bit group of the value, least
significant group first, continuation bit `0x80` set on every byte except
the last.  `read_leb128u` reads bytes until one without the continuation
bit and folds each payload group into the accumulator with
`accum = (accum << 7) | (b & 0x7F)`. -/

/-- Embedding of `write_leb128u` (src/leb128.rs:3-15).  The loop pushes
`(cur & 0x7F) | 0x80` and shifts `cur` right by 7 until `cur < 0x80`. -/
def writeLeb128u (v : Nat) : List Nat :=
  if v < 0x80 then [v]
  else ((v &&& 0x7F) ||| 0x80) :: writeLeb128u (v >>> 7)
termination_by v
decreasing_by
  rw [Nat.shiftRight_eq_div_pow]
  exact Nat.div_lt_self (by omega) (by norm_num)

/-- Embedding of the loop of `read_leb128u` (src/leb128.rs:17-31); the
first component of the result is the number of bytes consumed (`i`), the
second the `u64` accumulator.  Running off the end of the byte list is
undefined behaviour in the source; the embedding stops and returns the
state reached. -/
def readLeb128Loop : List Nat → Nat → Nat → Nat × Nat
  | [], i, accum => (i, accum)
  | b :: rest, i, accum =>
    let accum2 := ((accum <<< 7) ||| (b &&& 0x7F)) % 2 ^ 64
    if b < 0x80 then (i + 1, accum2)
    else readLeb128Loop rest (i + 1) accum2

/-- Embedding of `read_leb128u` (src/leb128.rs:17-31). -/
def readLeb128u (bytes : List Nat) : Nat × Nat :=
  readLeb128Loop bytes 0 0

/-! ## Value types (src/ir_types.rs) -/

/-- Embedding of `IrTypeId` (src/ir_types.rs:10-15). -/
inductive IrTypeId
  | bool
  | int32
  | int64
  | ptrInt
deriving DecidableEq, Repr

/-! ## Operation payload codecs (src/ops/)

Each operation's `ByteSerialize` impl writes its payload to a byte sink
and reads it back from a byte source.  The embeddings below model the
sink as the list of bytes appended and the source as the list of bytes
remaining, returning `(bytes_consumed, value)` like `take_from`. -/

/-- Embedding of `CmpKind` (src/ops/cmp_op.rs:14): `Lt=1, Gt, Le, Ge, Eq,
Ne`. -/
inductive CmpKind
  | lt
  | gt
  | le
  | ge
  | eq
  | ne
deriving DecidableEq, Repr

/-- The `repr(u8)` discriminant of a `CmpKind`. -/
def CmpKind.toU8 : CmpKind → Nat
  | .lt => 1
  | .gt => 2
  | .le => 3
  | .ge => 4
  | .eq => 5
  | .ne => 6

/-- Embedding of `CmpKind::is_valid_code` (src/ops/cmp_op.rs:16-19). -/
def CmpKind.isValidCode (code : Nat) : Bool :=
  decide (1 ≤ code) && decide (code ≤ 6)

/-- Embedding of `CmpKind::from_u8` (src/ops/cmp_op.rs:20-23); the
transmute is only reached on valid codes, other inputs are undefined
behaviour and default to `lt`. -/
def CmpKind.fromU8 : Nat → CmpKind
  | 2 => .gt
  | 3 => .le
  | 4 => .ge
  | 5 => .eq
  | 6 => .ne
  | _ => .lt

/-- Embedding of `BiniKind` (src/ops/bini_op.rs:19): `Add=1, Sub, Mul,
And, Or, Xor`. -/
inductive BiniKind
  | add
  | sub
  | mul
  | and
  | or
  | xor
deriving DecidableEq, Repr

/-- The `repr(u8)` discriminant of a `BiniKind`. -/
def BiniKind.toU8 : BiniKind → Nat
  | .add => 1
  | .sub => 2
  | .mul => 3
  | .and => 4
  | .or => 5
  | .xor => 6

/-- Embedding of `BiniKind::is_valid_code` (src/ops/bini_op.rs:21-24). -/
def BiniKind.isValidCode (code : Nat) : Bool :=
  decide (1 ≤ code) && decide (code ≤ 6)

/-- Embedding of `BiniKind::from_u8` (src/ops/bini_op.rs:25-28); inputs
outside 1..6 are undefined behaviour and default to `add`. -/
def BiniKind.fromU8 : Nat → BiniKind
  | 2 => .sub
  | 3 => .mul
  | 4 => .and
  | 5 => .or
  | 6 => .xor
  | _ => .add

/-- Embedding of `ConstBoolOp`'s `send_to` (src/ops/const_op.rs:78-83):
the byte is 0 for `true` and 1 for `false`. -/
def constBoolSend (b : Bool) : List Nat :=
  [if b then 0x0 else 0x1]

/-- Embedding of `ConstBoolOp`'s `take_from` (src/ops/const_op.rs:85-90):
one byte consumed, decoded to `b == 0`. -/
def constBoolTake (bytes : List Nat) : Nat × Bool :=
  let b := bytes.headD 0
  (1, b == 0)

/-- Embedding of `ConstInt32Op`'s `send_to` (src/ops/const_op.rs:94-98):
the `u32` value widened to `u64` and LEB128-encoded. -/
def constInt32Send (v : Nat) : List Nat :=
  writeLeb128u v

/-- Embedding of `ConstInt32Op`'s `take_from`
(src/ops/const_op.rs:100-107): the LEB128 byte count `_bs` is discarded
and the reported consumed-byte count is the constant 1; the
`assert!(v <= u32::max_value())` is a fatal check modelled as `none`. -/
def constInt32Take (bytes : List Nat) : Option (Nat × Nat) :=
  let v := (readLeb128u bytes).2
  if v ≤ 0xFFFFFFFF then some (1, v) else none

/-- Embedding of `ConstInt64Op`'s `send_to` (src/ops/const_op.rs:111-115). -/
def constInt64Send (v : Nat) : List Nat :=
  writeLeb128u v

/-- Embedding of `ConstInt64Op`'s `take_from`
(src/ops/const_op.rs:117-123): again the byte count is the constant 1. -/
def constInt64Take (bytes : List Nat) : Nat × Nat :=
  (1, (readLeb128u bytes).2)

/-- Embedding of `PhiOp`'s `send_to` (src/ops/phi_op.rs:50-54): the phi
number LEB128-encoded. -/
def phiSend (phiNo : Nat) : List Nat :=
  writeLeb128u phiNo

/-- Embedding of `PhiOp`'s `take_from` (src/ops/phi_op.rs:56-63): returns
the actual LEB128 byte count and the decoded phi number. -/
def phiTake (bytes : List Nat) : Nat × Nat :=
  readLeb128u bytes

/-- Embedding of `CmpOp`'s `send_to` (src/ops/cmp_op.rs:59-63): the kind
discriminant as one byte. -/
def cmpSend (k : CmpKind) : List Nat :=
  [k.toU8]

/-- Embedding of `CmpOp`'s `take_from` (src/ops/cmp_op.rs:65-71); the
`assert!(is_valid_code)` is modelled as `none`. -/
def cmpTake (bytes : List Nat) : Option (Nat × CmpKind) :=
  let b := bytes.headD 0
  if CmpKind.isValidCode b then some (1, CmpKind.fromU8 b) else none

/-- Embedding of `BiniOp`'s `send_to` (src/ops/bini_op.rs:66-70). -/
def biniSend (k : BiniKind) : List Nat :=
  [k.toU8]

/-- Embedding of `BiniOp`'s `take_from` (src/ops/bini_op.rs:72-78). -/
def biniTake (bytes : List Nat) : Option (Nat × BiniKind) :=
  let b := bytes.headD 0
  if BiniKind.isValidCode b then some (1, BiniKind.fromU8 b) else none

/-- `NopOp`, `RetOp`, `BranchOp` and `JumpOp` all have an empty payload
(`send_to` writes nothing, `take_from` consumes 0 bytes). -/
def emptyPayloadSend : List Nat := []

/-- The empty-payload decoder consumes zero bytes. -/
def emptyPayloadTake (_bytes : List Nat) : Nat := 0

/-! ## Blocks and the block store (src/block.rs)

`BlockStore` in src/block.rs owns the instruction byte buffer and the
instruction-position table alongside the declared-block table, the RPO
index and the current block id.  Instruction encoding is delegated to the
`Instr`/`EndInstr` traits' `send_instr`/`send_end`; those traits are not
defined anywhere under src/, so the embeddings of `emit_instr` and
`emit_end` take the encoder as an explicit function from the byte buffer
to an optional `(new buffer, bytes written)` pair, exactly the shape of
the missing method. -/

/-- Embedding of `BlockVariant` (src/block.rs:54-58). -/
inductive BlockVariant
  | plain (numPhis : Nat)
  | loopHead (numPhis : Nat) (loopNo : Nat)
  | start (startNo : Nat)
deriving DecidableEq, Repr

/-- Embedding of `BlockState` (src/block.rs:60-61); the Rust enum derives
`PartialOrd`/`Ord`, so the states are totally ordered in declaration
order. -/
inductive BlockState
  | declared
  | entered
  | finished
  | loopComplete
deriving DecidableEq, Repr

/-- The declaration-order rank of a `BlockState`, realising the derived
`Ord`. -/
def BlockState.toNat : BlockState → Nat
  | .declared => 0
  | .entered => 1
  | .finished => 2
  | .loopComplete => 3

/-- Embedding of `Block` (src/block.rs:25-53).  `InstrNo::invalid()` is
`u32::max_value()`, kept as the literal `0xFFFFFFFF`. -/
structure Block where
  id : Nat
  variant : BlockVariant
  state : BlockState
  inputEdges : Nat
  order : Nat
  firstInstr : Nat
  lastInstr : Nat
deriving DecidableEq, Repr

instance : Inhabited Block :=
  ⟨{ id := 0, variant := .plain 0, state := .declared, inputEdges := 0,
     order := 0xFFFFFFFF, firstInstr := 0xFFFFFFFF, lastInstr := 0xFFFFFFFF }⟩

/-- Embedding of `Block::new` (src/block.rs:64-72). -/
def Block.new (id : Nat) (bv : BlockVariant) : Block :=
  { id, variant := bv, state := .declared, inputEdges := 0,
    order := 0xFFFFFFFF, firstInstr := 0xFFFFFFFF, lastInstr := 0xFFFFFFFF }

/-- Embedding of `Block::is_start` (src/block.rs:87-93). -/
def Block.isStart (b : Block) : Bool :=
  match b.variant with
  | .start _ => true
  | _ => false

/-- Embedding of `Block::is_loop` (src/block.rs:94-100). -/
def Block.isLoop (b : Block) : Bool :=
  match b.variant with
  | .loopHead _ _ => true
  | _ => false

/-- Embedding of `Block::has_entered` (src/block.rs:103-105):
`state >= Entered`. -/
def Block.hasEntered (b : Block) : Bool :=
  decide (1 ≤ b.state.toNat)

/-- Embedding of `Block::has_finished` (src/block.rs:106-108). -/
def Block.hasFinished (b : Block) : Bool :=
  decide (2 ≤ b.state.toNat)

/-- Embedding of `Block::has_loop_complete` (src/block.rs:109-111). -/
def Block.hasLoopComplete (b : Block) : Bool :=
  decide (3 ≤ b.state.toNat)

/-- Embedding of `Block::incr_input_edges` (src/block.rs:113-115). -/
def Block.incrInputEdges (b : Block) : Block :=
  { b with inputEdges := b.inputEdges + 1 }

/-- Embedding of `Block::set_entered` (src/block.rs:116-123); the
`debug_assert!` is compiled out. -/
def Block.setEntered (b : Block) (order firstInstr : Nat) : Block :=
  { b with state := .entered, firstInstr := firstInstr, order := order }

/-- Embedding of `Block::set_add_instr` (src/block.rs:124-128). -/
def Block.setAddInstr (b : Block) (lastInstr : Nat) : Block :=
  { b with lastInstr := lastInstr }

/-- Embedding of `Block::set_finished` (src/block.rs:129-134). -/
def Block.setFinished (b : Block) (lastInstr : Nat) : Block :=
  { b with state := .finished, lastInstr := lastInstr }

/-- Embedding of `Block::set_loop_complete` (src/block.rs:135-139). -/
def Block.setLoopComplete (b : Block) : Block :=
  { b with state := .loopComplete }

/-- Embedding of `BlockStore` (src/block.rs:147-157). -/
structure BlockStore where
  instrBytes : List Nat
  instrPosns : List Nat
  declBlocks : List Block
  rpoIndex : List Nat
  curBlockId : Nat
  numStarts : Nat
  numLoops : Nat
  totalPhis : Nat
  numPhis : Nat
deriving DecidableEq, Repr

/-- Embedding of `BlockStore::front_instr_posn` (src/block.rs:205-207). -/
def BlockStore.frontInstrPosn (bs : BlockStore) : Nat :=
  bs.instrBytes.length

/-- Embedding of `BlockStore::front_instr_no` (src/block.rs:208-210). -/
def BlockStore.frontInstrNo (bs : BlockStore) : Nat :=
  bs.instrPosns.length

/-- Embedding of `BlockStore::decl_block` (src/block.rs:213-221):
`panic!("Too many declared blocks.")` once the declared-block count
reaches `MAX_DECL_BLOCKS = 0xff_ffff` (src/block.rs:165), modelled as
`none`. -/
def BlockStore.declBlock (bs : BlockStore) (bv : BlockVariant) :
    Option (BlockStore × Nat) :=
  let len := bs.declBlocks.length
  if 0xffffff ≤ len then none
  else some ({ bs with declBlocks := bs.declBlocks ++ [Block.new len bv] }, len)

/-- Embedding of `BlockStore::decl_plain_block` (src/block.rs:232-244):
declare the block, then add its phi count to `total_phis` (a `panic!` in
`decl_block` propagates as `none` via `Option.map`). -/
def BlockStore.declPlainBlock (bs : BlockStore) (numPhis : Nat) :
    Option (BlockStore × Nat) :=
  (bs.declBlock (.plain numPhis)).map
    (fun r => ({ r.1 with totalPhis := r.1.totalPhis + numPhis }, r.2))

/-- Embedding of `BlockStore::decl_start_block` (src/block.rs:245-252):
declare with the next start number, then bump `num_starts`. -/
def BlockStore.declStartBlock (bs : BlockStore) : Option (BlockStore × Nat) :=
  (bs.declBlock (.start bs.numStarts)).map
    (fun r => ({ r.1 with numStarts := r.1.numStarts + 1 }, r.2))

/-- Embedding of `BlockStore::decl_loop_head` (src/block.rs:253-271);
the `assert!(loop_no < u16::max_value())` is modelled as `none`. -/
def BlockStore.declLoopHead (bs : BlockStore) (numPhis : Nat) :
    Option (BlockStore × Nat) :=
  let loopNo := bs.numLoops
  if 0xffff ≤ loopNo then none
  else
    (bs.declBlock (.loopHead numPhis loopNo)).map
      (fun r => ({ r.1 with numLoops := r.1.numLoops + 1,
                            totalPhis := r.1.totalPhis + numPhis }, r.2))

/-- Embedding of `BlockStore::get_block` (src/block.rs:273-279); the
unchecked access is totalised with a default block, never exercised in
range by the theorems. -/
def BlockStore.getBlock (bs : BlockStore) (id : Nat) : Block :=
  bs.declBlocks.getD id default

/-- Update the block at index `id`, the effect of writing through
`BlockStore::get_mut_block` (src/block.rs:280-287). -/
def BlockStore.modifyBlock (bs : BlockStore) (id : Nat) (f : Block → Block) :
    BlockStore :=
  { bs with declBlocks := bs.declBlocks.set id (f (bs.getBlock id)) }

/-- Embedding of `BlockStore::enter_block` (src/block.rs:291-313): the
block's RPO order is the current length of `rpo_index`, the block is
marked entered with the front instruction number, appended to the RPO
index, and made current. -/
def BlockStore.enterBlock (bs : BlockStore) (id : Nat) : BlockStore :=
  let firstIns := bs.frontInstrNo
  let order := bs.rpoIndex.length
  let bs := bs.modifyBlock id (fun b => b.setEntered order firstIns)
  let bs := { bs with rpoIndex := bs.rpoIndex ++ [id] }
  { bs with curBlockId := id }

/-- Embedding of `BlockStore::finish_block` (src/block.rs:316-321). -/
def BlockStore.finishBlock (bs : BlockStore) (id lastIns : Nat) : BlockStore :=
  bs.modifyBlock id (fun b => b.setFinished lastIns)

/-- Embedding of `BlockStore::finish_loop` (src/block.rs:324-329). -/
def BlockStore.finishLoop (bs : BlockStore) (id : Nat) : BlockStore :=
  bs.modifyBlock id Block.setLoopComplete

/-- Embedding of `BlockStore::new` (src/block.rs:168-194): an empty store
that declares a start block and enters it immediately. -/
def BlockStore.new : BlockStore :=
  let bs : BlockStore :=
    { instrBytes := [], instrPosns := [], declBlocks := [], rpoIndex := [],
      curBlockId := 0, numStarts := 0, numLoops := 0, totalPhis := 0,
      numPhis := 0 }
  match bs.declStartBlock with
  | some (bs, startId) => bs.enterBlock startId
  | none => bs

/-- Embedding of `BlockStore::take_instr_no` (src/block.rs:331-339): the
new instruction number is the current length of `instr_posns`, and the
position is appended unconditionally (the `MAX_INSTRS` bound is a
`debug_assert!`). -/
def BlockStore.takeInstrNo (bs : BlockStore) (posn : Nat) : BlockStore × Nat :=
  let instrNo := bs.instrPosns.length
  ({ bs with instrPosns := bs.instrPosns ++ [posn] }, instrNo)

/-- Embedding of `BlockStore::take_phi_no` (src/block.rs:340-344): a
store-global counter, incremented on every call and never reset. -/
def BlockStore.takePhiNo (bs : BlockStore) : BlockStore × Nat :=
  ({ bs with numPhis := bs.numPhis + 1 }, bs.numPhis)

/-- Embedding of `BlockStore::emit_instr` (src/block.rs:346-369).  The
instruction number is taken (growing `instr_posns`) before the encoder
runs; an encoder failure propagates through `?` as `none`, leaving the
already-performed mutation in place. -/
def BlockStore.emitInstr (bs : BlockStore)
    (send : List Nat → Option (List Nat × Nat)) :
    BlockStore × Option (Nat × Nat) :=
  let blockId := bs.curBlockId
  let instrPosn := bs.frontInstrPosn
  let (bs, instrNo) := bs.takeInstrNo instrPosn
  match send bs.instrBytes with
  | none => (bs, none)
  | some (bytes, _sz) =>
    let bs := { bs with instrBytes := bytes }
    let bs := bs.modifyBlock blockId (fun b => b.setAddInstr instrNo)
    (bs, some (blockId, instrNo))

/-- Result of `BlockStore::emit_end`: a normal return, the `None`
capacity sentinel, or a `panic!`. -/
inductive EmitOutcome
  | ok (blockId instrNo : Nat)
  | sentinel
  | fatal
deriving DecidableEq, Repr

/-- Embedding of the target-validation loop of `BlockStore::emit_end`
(src/block.rs:385-414): for each `(target, phi_defs)` pair, if the target
has been entered it must be a loop head of a not-yet-complete loop
(otherwise `panic!`, modelled as `none`); every accepted target has its
input-edge count incremented.  The phi-definition count of each pair is
only used in a debug log. -/
def BlockStore.processTargets (bs : BlockStore) :
    List (Nat × List Nat) → Option BlockStore
  | [] => some bs
  | (tgtId, _phiDefs) :: rest =>
    let tgt := bs.getBlock tgtId
    if tgt.hasEntered && !tgt.isLoop then none
    else if tgt.hasEntered && tgt.hasLoopComplete then none
    else (bs.modifyBlock tgtId Block.incrInputEdges).processTargets rest

/-- Embedding of `BlockStore::emit_end` (src/block.rs:371-429): take an
instruction number (growing `instr_posns`), run the encoder (`?` gives
the `sentinel` outcome), validate targets and bump their input-edge
counts (`fatal` on a back edge to a non-loop or completed loop), then
finish the current block. -/
def BlockStore.emitEnd (bs : BlockStore)
    (send : List Nat → Option (List Nat × Nat))
    (targets : List (Nat × List Nat)) :
    BlockStore × EmitOutcome :=
  let blockId := bs.curBlockId
  let instrPosn := bs.frontInstrPosn
  let (bs, instrNo) := bs.takeInstrNo instrPosn
  match send bs.instrBytes with
  | none => (bs, .sentinel)
  | some (bytes, _sz) =>
    let bs := { bs with instrBytes := bytes }
    match bs.processTargets targets with
    | none => (bs, .fatal)
    | some bs =>
      let bs := bs.finishBlock blockId instrNo
      (bs, .ok blockId instrNo)

/-! ## Builder sessions (src/builder.rs)

A `BuildSession` is a scope over the `Builder`, holding the start index
of its sub-region of `subgraph_decls`, the number of blocks of that
sub-region entered so far, and the current block. -/

/-- Embedding of `Builder` (src/builder.rs:23-36). -/
structure Builder where
  blockStore : BlockStore
  subgraphDecls : List Nat
deriving DecidableEq, Repr

/-- Embedding of `Builder::new` (src/builder.rs:41-50). -/
def Builder.new : Builder :=
  { blockStore := BlockStore.new, subgraphDecls := [] }

/-- Embedding of the session-local fields of `BuildSession`
(src/builder.rs:98-114); the exclusive borrow of the `Builder` is passed
separately. -/
structure Session where
  subgraphStart : Nat
  subgraphEntered : Nat
  curBlock : Nat
deriving DecidableEq, Repr

/-- Embedding of `BuildSession::new` (src/builder.rs:117-128). -/
def Session.new (bld : Builder) (curBlock : Nat) : Session :=
  { subgraphStart := bld.subgraphDecls.length, subgraphEntered := 0, curBlock }

/-- Embedding of `BuildSession::next_spec_block` (src/builder.rs:180-190):
the declared block at offset `subgraph_start + subgraph_entered`; reading
past the end is undefined behaviour guarded by a `debug_assert!`,
modelled as `none`. -/
def nextSpecBlock (bld : Builder) (s : Session) : Option Nat :=
  bld.subgraphDecls[s.subgraphStart + s.subgraphEntered]?

/-- Embedding of `BuildSession::decl_plain_block` (src/builder.rs:193-202):
declare in the store and push the id onto `subgraph_decls`. -/
def sessDeclPlainBlock (bld : Builder) (numPhis : Nat) :
    Option (Builder × Nat) :=
  match bld.blockStore.declPlainBlock numPhis with
  | none => none
  | some (store, id) =>
    some ({ blockStore := store, subgraphDecls := bld.subgraphDecls ++ [id] }, id)

/-- Embedding of `BuildSession::decl_loop_head` (src/builder.rs:215-222). -/
def sessDeclLoopHead (bld : Builder) (numPhis : Nat) :
    Option (Builder × Nat) :=
  match bld.blockStore.declLoopHead numPhis with
  | none => none
  | some (store, id) =>
    some ({ blockStore := store, subgraphDecls := bld.subgraphDecls ++ [id] }, id)

/-- Embedding of `BuildSession::def_block_impl` (src/builder.rs:224-242):
`assert!` that the current block is finished and that the block being
defined is the next declared block of this session's sub-region, then
enter it, make it current and bump `subgraph_entered`.  The `assert!`
failures are fatal, modelled as `none`. -/
def defBlockImpl (bld : Builder) (s : Session) (b : Nat) :
    Option (Builder × Session) :=
  if !(bld.blockStore.getBlock s.curBlock).hasFinished then none
  else if nextSpecBlock bld s ≠ some b then none
  else
    let store := bld.blockStore.enterBlock b
    some ({ bld with blockStore := store },
          { s with curBlock := b, subgraphEntered := s.subgraphEntered + 1 })

/-- Embedding of `BuildSession::def_block` (src/builder.rs:246-253):
additionally `assert!` that the block is not a loop head. -/
def defBlock (bld : Builder) (s : Session) (b : Nat) :
    Option (Builder × Session) :=
  if (bld.blockStore.getBlock b).isLoop then none
  else defBlockImpl bld s b

/-- Embedding of `BuildSession::assert_complete` (src/builder.rs:284-298):
the sub-region must extend to the end of `subgraph_decls` and every block
of it except optionally the last must be finished. -/
def assertComplete (bld : Builder) (s : Session) : Bool :=
  (s.subgraphStart + s.subgraphEntered == bld.subgraphDecls.length) &&
  (List.range (s.subgraphEntered - 1)).all fun i =>
    (bld.blockStore.getBlock
      (bld.subgraphDecls.getD (s.subgraphStart + i) 0)).hasFinished

/-- Embedding of `BuildSession::def_subgraph` (src/builder.rs:256-282):
run the child session body `f` from a fresh session whose `cur_block` is
borrowed from the parent, check `assert_complete`, and adopt the child's
final `cur_block` as the parent's without re-entering it (the builder
state is exactly the one the child left behind). -/
def defSubgraph (bld : Builder) (s : Session)
    (f : Builder → Session → Option (Builder × Session)) :
    Option (Builder × Session) :=
  let child := Session.new bld s.curBlock
  match f bld child with
  | none => none
  | some (bld', child') =>
    if assertComplete bld' child' then
      some (bld', { s with curBlock := child'.curBlock })
    else none

/-- The effect of a terminal emission on the current block, as performed
by `BlockStore::emit_end` (src/block.rs:417): the store's current block
becomes finished.  `runDefBlocks` interleaves this with `def_block` to
model a client that ends each block before defining the next. -/
def finishCur (bld : Builder) : Builder :=
  { bld with
    blockStore := bld.blockStore.finishBlock bld.blockStore.curBlockId
      bld.blockStore.frontInstrNo }

/-- A run of `def_block` calls for one session, each preceded by a
terminal emission in the then-current block. -/
def runDefBlocks : Builder → Session → List Nat → Option (Builder × Session)
  | bld, s, [] => some (bld, s)
  | bld, s, b :: rest =>
    match defBlockImpl (finishCur bld) s b with
    | none => none
    | some (bld', s') => runDefBlocks bld' s' rest

/-! ## Phi accounting (spec §4.5)

`BuildSession::emit_phi` (src/builder.rs:495-503) calls
`BlockStore::emit_phi::<T>()`, but no such method is defined anywhere
under src/ — the store only provides `take_phi_no` (src/block.rs:340-344),
a store-global counter, and no per-block emitted-phi counter exists in
the `Block` or `BlockStore` structs.  The two definitions below model
that missing machinery from the spec. -/

/-- Modelled from the spec: the per-block emitted-phi counter that
`BlockStore::emit_phi` checks and increments and that `def_block` resets;
no such field exists under src/.  `curNumPhis` is the declared phi count
of the current block, `emitted` the number of phi instructions emitted
into it so far. -/
structure PhiCounter where
  curNumPhis : Nat
  emitted : Nat
deriving DecidableEq, Repr

/-- Modelled from the spec: `BlockStore::emit_phi` — invoked by
`BuildSession::emit_phi` (src/builder.rs:495-503) but missing from
src/block.rs.  Spec §4.5: "`emit_phi` additionally requires that the
block's phi count has not yet been exhausted; it increments the per-block
phi counter."  Exhaustion is a fatal error (`none`); the phi number
returned comes from the store's `take_phi_no` (src/block.rs:340-344). -/
def emitPhiM (bs : BlockStore) (pc : PhiCounter) :
    Option (BlockStore × PhiCounter × Nat) :=
  if pc.emitted < pc.curNumPhis then
    let (bs, phiNo) := bs.takePhiNo
    some (bs, { pc with emitted := pc.emitted + 1 }, phiNo)
  else none

/-- Modelled from the spec: the reset of the per-block emitted-phi
counter performed by `def_block` ("resets the per-block emitted-phi
counter to zero", spec §4.5); the counter being reset is part of the
machinery missing from src/. -/
def defBlockPhiReset (numPhisDeclared : Nat) : PhiCounter :=
  { curNumPhis := numPhisDeclared, emitted := 0 }

/-! ## The instruction stream and its reader (src/ops, src/instr.rs,
src/graph.rs)

`InstrStore` in src/instr.rs is the byte-offset-addressed instruction
stream used by `Graph`/`GraphSession`: each instruction is encoded as
`[opcode:1][payload][input ids: uLEB128 each]`, terminals followed by
`[target id][phi count][phi ids]` per target, and an instruction's id is
the byte offset of its opcode byte. -/

/-- Embedding of `Opcode` (src/ops/opcode.rs:15-32), a `repr(u8)` enum
starting at `Nop = 1`. -/
inductive Opcode
  | nop
  | phiBool
  | phiInt32
  | phiInt64
  | phiPtrInt
  | constBool
  | constInt32
  | constInt64
  | cmpBool
  | cmpInt32
  | cmpInt64
  | cmpPtrInt
  | biniBool
  | biniInt32
  | biniInt64
  | biniPtrInt
  | retBool
  | retInt32
  | retInt64
  | retPtrInt
  | branch
  | jump
deriving DecidableEq, Repr

/-- Embedding of `Opcode::into_u8` (src/ops/opcode.rs:57) for the
discriminants assigned from `Nop = 1` (src/ops/opcode.rs:15-32). -/
def Opcode.toU8 : Opcode → Nat
  | .nop => 1
  | .phiBool => 2
  | .phiInt32 => 3
  | .phiInt64 => 4
  | .phiPtrInt => 5
  | .constBool => 6
  | .constInt32 => 7
  | .constInt64 => 8
  | .cmpBool => 9
  | .cmpInt32 => 10
  | .cmpInt64 => 11
  | .cmpPtrInt => 12
  | .biniBool => 13
  | .biniInt32 => 14
  | .biniInt64 => 15
  | .biniPtrInt => 16
  | .retBool => 17
  | .retInt32 => 18
  | .retInt64 => 19
  | .retPtrInt => 20
  | .branch => 21
  | .jump => 22

/-- Embedding of `Opcode::from_u8` (src/ops/opcode.rs:52-55): the inverse
of the discriminant assignment; invalid bytes (guarded by a
`debug_assert!` over `valid_u8`) are modelled as `none`. -/
def Opcode.fromU8 : Nat → Option Opcode
  | 1 => some .nop
  | 2 => some .phiBool
  | 3 => some .phiInt32
  | 4 => some .phiInt64
  | 5 => some .phiPtrInt
  | 6 => some .constBool
  | 7 => some .constInt32
  | 8 => some .constInt64
  | 9 => some .cmpBool
  | 10 => some .cmpInt32
  | 11 => some .cmpInt64
  | 12 => some .cmpPtrInt
  | 13 => some .biniBool
  | 14 => some .biniInt32
  | 15 => some .biniInt64
  | 16 => some .biniPtrInt
  | 17 => some .retBool
  | 18 => some .retInt32
  | 19 => some .retInt64
  | 20 => some .retPtrInt
  | 21 => some .branch
  | 22 => some .jump
  | _ => none

/-- Embedding of the dynamic `Op` enum (src/ops/op.rs:12-21), holding a
decoded operation together with its payload. -/
inductive Op
  | nop
  | phi (ty : IrTypeId) (phiNo : Nat)
  | constB (v : Bool)
  | constI32 (v : Nat)
  | constI64 (v : Nat)
  | cmp (ty : IrTypeId) (kind : CmpKind)
  | bini (ty : IrTypeId) (kind : BiniKind)
  | ret (ty : IrTypeId)
  | branch
  | jump
deriving DecidableEq, Repr

/-- Embedding of `Op::terminal` (src/ops/op.rs:24-35). -/
def Op.terminal : Op → Bool
  | .ret _ => true
  | .branch => true
  | .jump => true
  | _ => false

/-- Embedding of `Op::num_inputs` (src/ops/op.rs:36-47), dispatching to
each operation's `num_operands`. -/
def Op.numInputs : Op → Nat
  | .nop => 0
  | .phi _ _ => 0
  | .constB _ => 0
  | .constI32 _ => 0
  | .constI64 _ => 0
  | .cmp _ _ => 2
  | .bini _ _ => 2
  | .ret _ => 1
  | .branch => 1
  | .jump => 0

/-- The opcode of a decoded operation, realising each operation's
`opcode()` dispatch on its type parameter (e.g. src/ops/cmp_op.rs:46-53). -/
def Op.opcode : Op → Opcode
  | .nop => .nop
  | .phi .bool _ => .phiBool
  | .phi .int32 _ => .phiInt32
  | .phi .int64 _ => .phiInt64
  | .phi .ptrInt _ => .phiPtrInt
  | .constB _ => .constBool
  | .constI32 _ => .constInt32
  | .constI64 _ => .constInt64
  | .cmp .bool _ => .cmpBool
  | .cmp .int32 _ => .cmpInt32
  | .cmp .int64 _ => .cmpInt64
  | .cmp .ptrInt _ => .cmpPtrInt
  | .bini .bool _ => .biniBool
  | .bini .int32 _ => .biniInt32
  | .bini .int64 _ => .biniInt64
  | .bini .ptrInt _ => .biniPtrInt
  | .ret .bool => .retBool
  | .ret .int32 => .retInt32
  | .ret .int64 => .retInt64
  | .ret .ptrInt => .retPtrInt
  | .branch => .branch
  | .jump => .jump

/-- The payload bytes written for an operation by its `send_to`
(`write_to` in the `Operation` trait), per src/ops/. -/
def Op.payloadBytes : Op → List Nat
  | .nop => emptyPayloadSend
  | .phi _ n => phiSend n
  | .constB b => constBoolSend b
  | .constI32 v => constInt32Send v
  | .constI64 v => constInt64Send v
  | .cmp _ k => cmpSend k
  | .bini _ k => biniSend k
  | .ret _ => emptyPayloadSend
  | .branch => emptyPayloadSend
  | .jump => emptyPayloadSend

/-- The payload decoder for an opcode, dispatching like
`Opcode::specialize` under `Op::read_from` (src/ops/op.rs:48-60 and
src/ops/opcode.rs:59-130) to the operation's `take_from`, returning the
consumed-byte count that `take_from` reports and the decoded `Op`. -/
def readPayload (oc : Opcode) (rest : List Nat) : Option (Nat × Op) :=
  match oc with
  | .nop => some (emptyPayloadTake rest, .nop)
  | .phiBool => some ((phiTake rest).1, .phi .bool (phiTake rest).2)
  | .phiInt32 => some ((phiTake rest).1, .phi .int32 (phiTake rest).2)
  | .phiInt64 => some ((phiTake rest).1, .phi .int64 (phiTake rest).2)
  | .phiPtrInt => some ((phiTake rest).1, .phi .ptrInt (phiTake rest).2)
  | .constBool => some ((constBoolTake rest).1, .constB (constBoolTake rest).2)
  | .constInt32 =>
    match constInt32Take rest with
    | none => none
    | some (nb, v) => some (nb, .constI32 v)
  | .constInt64 => some ((constInt64Take rest).1, .constI64 (constInt64Take rest).2)
  | .cmpBool =>
    match cmpTake rest with
    | none => none
    | some (nb, k) => some (nb, .cmp .bool k)
  | .cmpInt32 =>
    match cmpTake rest with
    | none => none
    | some (nb, k) => some (nb, .cmp .int32 k)
  | .cmpInt64 =>
    match cmpTake rest with
    | none => none
    | some (nb, k) => some (nb, .cmp .int64 k)
  | .cmpPtrInt =>
    match cmpTake rest with
    | none => none
    | some (nb, k) => some (nb, .cmp .ptrInt k)
  | .biniBool =>
    match biniTake rest with
    | none => none
    | some (nb, k) => some (nb, .bini .bool k)
  | .biniInt32 =>
    match biniTake rest with
    | none => none
    | some (nb, k) => some (nb, .bini .int32 k)
  | .biniInt64 =>
    match biniTake rest with
    | none => none
    | some (nb, k) => some (nb, .bini .int64 k)
  | .biniPtrInt =>
    match biniTake rest with
    | none => none
    | some (nb, k) => some (nb, .bini .ptrInt k)
  | .retBool => some (emptyPayloadTake rest, .ret .bool)
  | .retInt32 => some (emptyPayloadTake rest, .ret .int32)
  | .retInt64 => some (emptyPayloadTake rest, .ret .int64)
  | .retPtrInt => some (emptyPayloadTake rest, .ret .ptrInt)
  | .branch => some (emptyPayloadTake rest, .branch)
  | .jump => some (emptyPayloadTake rest, .jump)

/-- Embedding of `Op::read_from` (src/ops/op.rs:48-60): read the opcode
byte, dispatch to the payload decoder, and report `1 + nb` bytes
consumed. -/
def Op.readFrom (bytes : List Nat) : Option (Nat × Op) :=
  match Opcode.fromU8 (bytes.headD 0) with
  | none => none
  | some oc =>
    match readPayload oc (bytes.drop 1) with
    | none => none
    | some (nb, op) => some (1 + nb, op)

/-- The total LEB128 bytes consumed by draining an `InstrInputs` iterator
(src/instr.rs:334-351): each step reads one uLEB128 id, adds its byte
count and advances the byte cursor, `num_inputs` times. -/
def inputsBytesRead : Nat → List Nat → Nat
  | 0, _ => 0
  | n + 1, bytes =>
    let nb := (readLeb128u bytes).1
    nb + inputsBytesRead n (bytes.drop nb)

/-- Embedding of the decoded-instruction record `InstrInfo`
(src/instr.rs:29-46): the instruction's id, its operation, the offset of
the input list, and the offset just past the input list. -/
structure InstrInfo where
  defnId : Nat
  op : Op
  inputsOffset : Nat
  afterInputsOffset : Nat
deriving DecidableEq, Repr

/-- Embedding of `InstrStore::read_instr_info` (src/instr.rs:202-224):
decode the operation at the id's byte offset, then drain the inputs
iterator to fix `after_inputs_offset`. -/
def readInstrInfo (stream : List Nat) (id : Nat) : Option InstrInfo :=
  let data := stream.drop id
  match Op.readFrom data with
  | none => none
  | some (nb, op) =>
    let inputsOffset := nb
    let after := inputsOffset + inputsBytesRead op.numInputs (data.drop inputsOffset)
    some { defnId := id, op, inputsOffset, afterInputsOffset := after }

/-- Embedding of `InstrInfo::next_defn` (src/instr.rs:299-312): `none`
for a terminal operation, otherwise the id advanced past the inputs. -/
def InstrInfo.nextDefn (info : InstrInfo) : Option Nat :=
  if info.op.terminal then none
  else some (info.defnId + info.afterInputsOffset)

/-- The opcode sequence a `GraphSession` visits by repeated
`next_defn` (src/graph.rs:110-119): read the instruction at the cursor,
record its opcode, and follow `next_defn` while fuel lasts. -/
def sessionOpcodes (stream : List Nat) : Nat → Nat → List Opcode
  | _, 0 => []
  | id, fuel + 1 =>
    match readInstrInfo stream id with
    | none => []
    | some info =>
      info.op.opcode ::
        match info.nextDefn with
        | none => []
        | some nid => sessionOpcodes stream nid fuel

/-- Embedding of `InstrStore` (src/instr.rs:15-24). -/
structure InstrStore where
  instrBytes : List Nat
  maxLen : Nat
  numInstrs : Nat
deriving DecidableEq, Repr

/-- Embedding of `InstrStore::new` (src/instr.rs:81-86):
`MAX_INSTR_BYTES = 0xff_ffff`. -/
def InstrStore.new : InstrStore :=
  { instrBytes := [], maxLen := 0xffffff, numInstrs := 0 }

/-- Embedding of `InstrStore::within_limits` (src/instr.rs:88-90). -/
def InstrStore.withinLimits (st : InstrStore) : Bool :=
  decide (st.instrBytes.length ≤ st.maxLen)

/-- Embedding of `InstrStore::append_instr_impl` (src/instr.rs:104-123):
opcode byte, payload, then each input id uLEB128-encoded. -/
def appendInstrImpl (bytes : List Nat) (op : Op) (inputs : List Nat) :
    List Nat :=
  bytes ++ [op.opcode.toU8] ++ op.payloadBytes ++ (inputs.map writeLeb128u).flatten

/-- Embedding of `InstrStore::append_targets_impl` (src/instr.rs:125-152):
for each target, its block id, the phi-definition count, then each phi
definition id, all uLEB128-encoded. -/
def appendTargetsImpl (bytes : List Nat) (targets : List (Nat × List Nat)) :
    List Nat :=
  bytes ++ (targets.map fun t =>
    writeLeb128u t.1 ++ writeLeb128u t.2.length ++ (t.2.map writeLeb128u).flatten).flatten

/-- Embedding of `InstrStore::emit_instr` (src/instr.rs:226-248): capacity
check, save the front offset as the id, append, re-check capacity. -/
def InstrStore.emitInstr (st : InstrStore) (op : Op) (inputs : List Nat) :
    InstrStore × Option Nat :=
  if !st.withinLimits then (st, none)
  else
    let id := st.instrBytes.length
    let st := { st with instrBytes := appendInstrImpl st.instrBytes op inputs }
    if !st.withinLimits then (st, none) else (st, some id)

/-- Embedding of `InstrStore::emit_end` (src/instr.rs:250-279): like
`emit_instr` with the target list appended after the inputs. -/
def InstrStore.emitEnd (st : InstrStore) (op : Op) (inputs : List Nat)
    (targets : List (Nat × List Nat)) : InstrStore × Option Nat :=
  if !st.withinLimits then (st, none)
  else
    let id := st.instrBytes.length
    let st := { st with
      instrBytes := appendTargetsImpl (appendInstrImpl st.instrBytes op inputs) targets }
    if !st.withinLimits then (st, none) else (st, some id)

/-! ## The E1 example stream (spec §8, src/src/bin/test0.rs)

The E1 program's instructions in emission order, encoded through the
`InstrStore` embedding.  Block declaration ids: start = 0, A = 1, B = 2,
C = 3, E = 4, D = 5 (D is declared inside the subgraph opened in B). -/

/-- E1 start block: `a = const_int32(0)` at id 0. -/
def e1S1 : InstrStore × Option Nat := InstrStore.new.emitInstr (.constI32 0) []

/-- E1 start block: `b = const_int32(10)`. -/
def e1S2 : InstrStore × Option Nat := e1S1.1.emitInstr (.constI32 10) []

/-- E1 start block: `c = eq(a, b)`. -/
def e1S3 : InstrStore × Option Nat :=
  e1S2.1.emitInstr (.cmp .int32 .eq) [e1S1.2.getD 0, e1S2.2.getD 0]

/-- E1 start block: `branch(c, A, [], B, [])`. -/
def e1S4 : InstrStore × Option Nat :=
  e1S3.1.emitEnd .branch [e1S3.2.getD 0] [(1, []), (2, [])]

/-- E1 block A: `const_int32(1)`. -/
def e1S5 : InstrStore × Option Nat := e1S4.1.emitInstr (.constI32 1) []

/-- E1 block A: `d = add(a, const1)`. -/
def e1S6 : InstrStore × Option Nat :=
  e1S5.1.emitInstr (.bini .int32 .add) [e1S1.2.getD 0, e1S5.2.getD 0]

/-- E1 block A: `jump(C, [d])`. -/
def e1S7 : InstrStore × Option Nat :=
  e1S6.1.emitEnd .jump [] [(3, [e1S6.2.getD 0])]

/-- E1 block B: `e = add(a, b)`. -/
def e1S8 : InstrStore × Option Nat :=
  e1S7.1.emitInstr (.bini .int32 .add) [e1S1.2.getD 0, e1S2.2.getD 0]

/-- E1 block B: `f = const_int32(9)`. -/
def e1S9 : InstrStore × Option Nat := e1S8.1.emitInstr (.constI32 9) []

/-- E1 block B: `g = eq(e, f)`. -/
def e1S10 : InstrStore × Option Nat :=
  e1S9.1.emitInstr (.cmp .int32 .eq) [e1S8.2.getD 0, e1S9.2.getD 0]

/-- E1 block B: `branch(g, C, [f], D, [])`. -/
def e1S11 : InstrStore × Option Nat :=
  e1S10.1.emitEnd .branch [e1S10.2.getD 0] [(3, [e1S9.2.getD 0]), (5, [])]

/-- E1 block D: `const_int32(1)`. -/
def e1S12 : InstrStore × Option Nat := e1S11.1.emitInstr (.constI32 1) []

/-- E1 block D: `i = add(f, const1)`. -/
def e1S13 : InstrStore × Option Nat :=
  e1S12.1.emitInstr (.bini .int32 .add) [e1S9.2.getD 0, e1S12.2.getD 0]

/-- E1 block D: `jump(E, [i])`. -/
def e1S14 : InstrStore × Option Nat :=
  e1S13.1.emitEnd .jump [] [(4, [e1S13.2.getD 0])]

/-- E1 block C: `h = phi<Int32>` (global phi number 0). -/
def e1S15 : InstrStore × Option Nat :=
  e1S14.1.emitInstr (.phi .int32 0) []

/-- E1 block C: `jump(E, [h])`. -/
def e1S16 : InstrStore × Option Nat :=
  e1S15.1.emitEnd .jump [] [(4, [e1S15.2.getD 0])]

/-- E1 block E: `j = phi<Int32>` (global phi number 1). -/
def e1S17 : InstrStore × Option Nat :=
  e1S16.1.emitInstr (.phi .int32 1) []

/-- E1 block E: `ret(j)`. -/
def e1S18 : InstrStore × Option Nat :=
  e1S17.1.emitEnd (.ret .int32) [e1S17.2.getD 0] []

/-- The complete E1 instruction stream. -/
def e1Stream : List Nat := e1S18.1.instrBytes

/-! ## Concrete stores used to evaluate the block-store embedding -/

/-- A fresh store with one additional plain block declared with
`num_phis = 1` (declaration id 1), the E3 scenario's target. -/
def phiOneStore : BlockStore :=
  match BlockStore.new.declPlainBlock 1 with
  | some (bs, _) => bs
  | none => BlockStore.new

/-- A fresh store with a loop head (declaration id 1, `num_phis = 1`)
declared and entered. -/
def enteredLoopStore : BlockStore :=
  match BlockStore.new.declLoopHead 1 with
  | some (bs, id) => bs.enterBlock id
  | none => BlockStore.new

/-- The entered loop head of `enteredLoopStore`, finished and marked
loop-complete. -/
def completedLoopStore : BlockStore :=
  (enteredLoopStore.finishBlock 1 0).finishLoop 1

/-- A block store in which `2 ^ 20` blocks have already been declared. -/
def storeWithManyBlocks : BlockStore :=
  { BlockStore.new with declBlocks := List.replicate (2 ^ 20) default }

/-- A builder whose root session has declared two plain blocks
(declaration ids 1 and 2). -/
def twoBlockBuilder : Builder :=
  match sessDeclPlainBlock Builder.new 0 with
  | some (bld, _) =>
    match sessDeclPlainBlock bld 0 with
    | some (bld2, _) => bld2
    | none => bld
  | none => Builder.new

/-- The root session of `twoBlockBuilder` (the start block is current,
no sub-region block entered yet). -/
def twoBlockSession : Session :=
  { subgraphStart := 0, subgraphEntered := 0, curBlock := 0 }

/-- One unfolding of `writeLeb128u` below the continuation threshold. -/
theorem writeLeb128u_small (v : Nat) (h : v < 0x80) :
    writeLeb128u v = [v] := by
  rw [writeLeb128u]
  simp [h]

/-- One unfolding of `writeLeb128u` at or above the continuation
threshold. -/
theorem writeLeb128u_large (v : Nat) (h : ¬ v < 0x80) :
    writeLeb128u v = ((v &&& 0x7F) ||| 0x80) :: writeLeb128u (v >>> 7) := by
  rw [writeLeb128u]
  simp [h]

/-- The encoder output for the value 128: low group first. -/
theorem writeLeb128u_at_128 : writeLeb128u 128 = [0x80, 0x01] := by
  rw [writeLeb128u_large 128 (by norm_num),
      writeLeb128u_small (128 >>> 7) (by decide)]
  decide

/-! ## Claim C1 — LEB128 round-trip -/

/-- C1: the claim states that decoding the bytes produced by the LEB128
encoder yields exactly `(n, v)` for every u64 value `v`.  The code
violates it: `write_leb128u` emits the least significant 7-bit group
first, while `read_leb128u` folds the groups most-significant-first
(`accum = (accum << 7) | (b & 0x7F)`), so decoding the 2-byte encoding
of 128 yields the value 1; a single-byte value such as 127 does
round-trip. -/
theorem leb128_roundtrip_fails_at_128 :
    writeLeb128u 128 = [0x80, 0x01] ∧
    readLeb128u (writeLeb128u 128) = (2, 1) ∧
    readLeb128u (writeLeb128u 127) = (1, 127) := by
  refine ⟨writeLeb128u_at_128, ?_, ?_⟩
  · rw [writeLeb128u_at_128]
    decide
  · rw [writeLeb128u_small 127 (by norm_num)]
    decide

/-! ## Claim C2 — operation payload round-trip -/

/-- C2: the claim states that every operation payload round-trips through
its payload-encoder and payload-decoder with the exact byte count
reported.  The `ConstInt32Op` payload value 128 refutes it: the encoder
writes the two LEB128 bytes `[0x80, 0x01]`, while `take_from` decodes
the value 1 (the group-order bug of C1) and reports the hard-coded
consumed-byte count 1. -/
theorem const_int32_payload_roundtrip_fails_at_128 :
    constInt32Send 128 = [0x80, 0x01] ∧
    (constInt32Send 128).length = 2 ∧
    constInt32Take (constInt32Send 128) = some (1, 1) := by
  have h : constInt32Send 128 = [0x80, 0x01] := writeLeb128u_at_128
  refine ⟨h, ?_, ?_⟩ <;> rw [h] <;> decide

/-! ## Claim C9 — ConstBool payload encoding -/

/-- C9: the `ConstBool` payload encoder writes `true` as byte 0x00 and
`false` as byte 0x01, and the decoder maps byte 0x00 back to `true`, so
both booleans round-trip with exactly one byte consumed. -/
theorem const_bool_payload_inverted_roundtrip :
    constBoolSend true = [0x00] ∧
    constBoolSend false = [0x01] ∧
    constBoolTake (constBoolSend true) = (1, true) ∧
    constBoolTake (constBoolSend false) = (1, false) ∧
    (constBoolSend true).length = 1 ∧
    (constBoolSend false).length = 1 := by
  decide

/-! ## Claim C3 — phi-arity validation at terminal emission -/

/-- C3: the claim states that a terminal whose phi-argument list length
differs from the target's declared `num_phis` fails fatally at emission.
The code refutes it: in `phiOneStore` block 1 is declared with
`num_phis = 1`, yet `emit_end` encoding a jump with an empty phi list to
block 1 returns successfully (outcome `ok`) and increments the target's
input-edge count — `BlockStore::emit_end` never compares the
phi-argument count against the target's declared phi count. -/
theorem emit_end_accepts_phi_arity_mismatch :
    (phiOneStore.getBlock 1).variant = BlockVariant.plain 1 ∧
    (phiOneStore.getBlock 1).hasEntered = false ∧
    (phiOneStore.emitEnd (fun b => some (b ++ [22, 1, 0], 3)) [(1, [])]).2
      = EmitOutcome.ok 0 0 ∧
    ((phiOneStore.emitEnd (fun b => some (b ++ [22, 1, 0], 3))
        [(1, [])]).1.getBlock 1).inputEdges = 1 := by
  decide

/-! ## Claim C10 — failed emissions still consume an instruction number -/

/-- C10: when the instruction encoder fails, `emit_instr` returns `none`
and `emit_end` the capacity sentinel, but `take_instr_no` has already
appended the instruction position, so the position table has grown by
one entry: a failed emission is not atomic with respect to the
instruction-numbering state. -/
theorem failed_emission_grows_instr_posns (bs : BlockStore)
    (send : List Nat → Option (List Nat × Nat))
    (targets : List (Nat × List Nat))
    (h : send bs.instrBytes = none) :
    (bs.emitInstr send).2 = none ∧
    (bs.emitInstr send).1.instrPosns
      = bs.instrPosns ++ [bs.instrBytes.length] ∧
    (bs.emitInstr send).1.instrPosns.length = bs.instrPosns.length + 1 ∧
    (bs.emitEnd send targets).2 = EmitOutcome.sentinel ∧
    (bs.emitEnd send targets).1.instrPosns.length
      = bs.instrPosns.length + 1 := by
  simp [BlockStore.emitInstr, BlockStore.emitEnd, BlockStore.takeInstrNo,
        BlockStore.frontInstrPosn, h]

/-- Witness for C10 at a concrete store and an encoder that fails. -/
theorem failed_emission_grows_instr_posns_witness :
    (BlockStore.new.emitInstr (fun _ => none)).2 = none ∧
    (BlockStore.new.emitInstr (fun _ => none)).1.instrPosns
      = BlockStore.new.instrPosns ++ [BlockStore.new.instrBytes.length] ∧
    (BlockStore.new.emitInstr (fun _ => none)).1.instrPosns.length
      = BlockStore.new.instrPosns.length + 1 ∧
    (BlockStore.new.emitEnd (fun _ => none) []).2 = EmitOutcome.sentinel ∧
    (BlockStore.new.emitEnd (fun _ => none) []).1.instrPosns.length
      = BlockStore.new.instrPosns.length + 1 :=
  failed_emission_grows_instr_posns BlockStore.new (fun _ => none) [] rfl

/-! ## Claim C4 — the declared-block limit -/

/-- C4 counterexample: the claim states that block declaration fails when
the next declaration id would reach `2 ^ 20` and that every declared
block has id below `2 ^ 20`.  In a store with `2 ^ 20` blocks already
declared, `decl_plain_block` succeeds and returns declaration id
`2 ^ 20`, which is not below `2 ^ 20`. -/
theorem decl_block_succeeds_at_id_2pow20 :
    (storeWithManyBlocks.declPlainBlock 0).map Prod.snd = some (2 ^ 20) ∧
    ¬ 2 ^ 20 < 2 ^ 20 := by
  have hlen : storeWithManyBlocks.declBlocks.length = 2 ^ 20 := by
    simp only [storeWithManyBlocks, List.length_replicate]
  have hcond : ¬ 0xffffff ≤ storeWithManyBlocks.declBlocks.length := by
    rw [hlen]
    norm_num
  have hdecl : storeWithManyBlocks.declBlock (BlockVariant.plain 0)
      = some ({ storeWithManyBlocks with
            declBlocks := storeWithManyBlocks.declBlocks
              ++ [Block.new storeWithManyBlocks.declBlocks.length
                    (BlockVariant.plain 0)] },
          storeWithManyBlocks.declBlocks.length) := by
    unfold BlockStore.declBlock
    rw [if_neg hcond]
  constructor
  · unfold BlockStore.declPlainBlock
    rw [hdecl, Option.map_some', Option.map_some']
    exact congrArg some hlen
  · omega

/-- C4 amended: every block declaration operation fails with a hard error
(`panic!`, modelled as `none`) exactly when the declared-block count has
reached `MAX_DECL_BLOCKS = 0xff_ffff = 2 ^ 24 - 1`; every successfully
declared block receives the current declared-block count as its id,
which is strictly below `0xff_ffff`. -/
theorem decl_block_limit_is_2pow24_minus_1 (bs : BlockStore)
    (bv : BlockVariant) :
    ((bs.declBlock bv).isSome ↔ bs.declBlocks.length < 0xffffff) ∧
    (∀ id, (bs.declBlock bv).map Prod.snd = some id →
        id = bs.declBlocks.length ∧ id < 0xffffff) ∧
    (∀ numPhis id, (bs.declPlainBlock numPhis).map Prod.snd = some id →
        id < 0xffffff) ∧
    (∀ id, bs.declStartBlock.map Prod.snd = some id → id < 0xffffff) ∧
    (∀ numPhis id, (bs.declLoopHead numPhis).map Prod.snd = some id →
        id < 0xffffff) := by
  by_cases hlen : 0xffffff ≤ bs.declBlocks.length
  · refine ⟨by simp [BlockStore.declBlock, hlen], ?_, ?_, ?_, ?_⟩ <;>
      intro _ <;>
      simp [BlockStore.declBlock, BlockStore.declPlainBlock,
            BlockStore.declStartBlock, BlockStore.declLoopHead, hlen]
  · refine ⟨by simp [BlockStore.declBlock, hlen]; omega, ?_, ?_, ?_, ?_⟩
    · intro id h
      simp [BlockStore.declBlock, hlen] at h
      omega
    · intro numPhis id h
      simp [BlockStore.declPlainBlock, BlockStore.declBlock, hlen] at h
      omega
    · intro id h
      simp [BlockStore.declStartBlock, BlockStore.declBlock, hlen] at h
      omega
    · intro numPhis id h
      by_cases hl : 0xffff ≤ bs.numLoops
      · simp [BlockStore.declLoopHead, hl] at h
      · simp [BlockStore.declLoopHead, BlockStore.declBlock, hlen, hl] at h
        omega

/-- Witness for C4's amended theorem on a fresh store. -/
theorem decl_block_limit_is_2pow24_minus_1_witness :
    1 = BlockStore.new.declBlocks.length ∧ 1 < 0xffffff :=
  (decl_block_limit_is_2pow24_minus_1 BlockStore.new
    (BlockVariant.plain 0)).2.1 1 (by decide)

/-! ## Claim C5 — phi accounting (spec-modelled) -/

/-- C5: `emit_phi` on a block whose declared phi count is exhausted is a
fatal error; a successful `emit_phi` increments the per-block
emitted-phi counter (never past the declared count), takes the phi
number from the store's global `take_phi_no` counter and increments it,
and `def_block` resets the per-block counter to zero.  Settled against
the machinery modelled from spec §4.5, since `BlockStore::emit_phi` and
the per-block counter are missing from src/. -/
theorem emit_phi_accounting (bs : BlockStore) (pc : PhiCounter) :
    (emitPhiM bs pc = none ↔ pc.curNumPhis ≤ pc.emitted) ∧
    (∀ e, (emitPhiM bs pc).map (fun r => r.2.1.emitted) = some e →
        e = pc.emitted + 1 ∧ e ≤ pc.curNumPhis) ∧
    (∀ n, (emitPhiM bs pc).map (fun r => r.2.1.curNumPhis) = some n →
        n = pc.curNumPhis) ∧
    (∀ n, (emitPhiM bs pc).map (fun r => r.2.2) = some n → n = bs.numPhis) ∧
    (∀ g, (emitPhiM bs pc).map (fun r => r.1.numPhis) = some g →
        g = bs.numPhis + 1) ∧
    (∀ n, (defBlockPhiReset n).emitted = 0 ∧
        (defBlockPhiReset n).curNumPhis = n) := by
  by_cases h : pc.emitted < pc.curNumPhis <;>
    simp [emitPhiM, BlockStore.takePhiNo, defBlockPhiReset, h] <;>
    omega

/-- Witness for C5 at a fresh store and a block declared with one phi. -/
theorem emit_phi_accounting_witness :
    1 = (defBlockPhiReset 1).emitted + 1 ∧
    1 ≤ (defBlockPhiReset 1).curNumPhis :=
  (emit_phi_accounting BlockStore.new (defBlockPhiReset 1)).2.1 1 (by decide)

/-! ## Claim C6 — back-edge validation at terminal emission -/

/-- Target processing only reads and writes the declared-block table, so
changing the instruction-byte buffer and the position table commutes
with it. -/
theorem processTargets_ignores_instr_fields (x y : List Nat)
    (targets : List (Nat × List Nat)) (bs : BlockStore) :
    BlockStore.processTargets { bs with instrBytes := x, instrPosns := y }
        targets
      = (bs.processTargets targets).map
          (fun r => { r with instrBytes := x, instrPosns := y }) := by
  induction targets generalizing bs with
  | nil => rfl
  | cons t rest ih =>
    obtain ⟨tgtId, phis⟩ := t
    have hget : BlockStore.getBlock
        { bs with instrBytes := x, instrPosns := y } tgtId
        = bs.getBlock tgtId := rfl
    have hmod : BlockStore.modifyBlock
        { bs with instrBytes := x, instrPosns := y } tgtId Block.incrInputEdges
        = { bs.modifyBlock tgtId Block.incrInputEdges with
            instrBytes := x
            instrPosns := y } := rfl
    simp only [BlockStore.processTargets, hget, hmod]
    by_cases h1 : (bs.getBlock tgtId).hasEntered
        && !(bs.getBlock tgtId).isLoop
    · simp [h1]
    · by_cases h2 : (bs.getBlock tgtId).hasEntered
          && (bs.getBlock tgtId).hasLoopComplete
      · simp [h1, h2]
      · simp [h1, h2, ih]

/-- C6: during terminal emission, an already-Entered target that is not a
loop head is a fatal error, an already-Entered loop head that is already
LoopComplete is a fatal error, and an Entered loop head that is not yet
LoopComplete is accepted (its input-edge count is incremented and
processing continues with the remaining targets); `emit_end` ends in the
fatal outcome exactly when its target validation fails, whenever the
instruction encoder itself succeeds. -/
theorem emit_end_backedge_validation :
    (∀ (bs : BlockStore) (tgtId : Nat) (phis : List Nat)
        (rest : List (Nat × List Nat)),
        (bs.getBlock tgtId).hasEntered = true →
        (bs.getBlock tgtId).isLoop = false →
        bs.processTargets ((tgtId, phis) :: rest) = none) ∧
    (∀ (bs : BlockStore) (tgtId : Nat) (phis : List Nat)
        (rest : List (Nat × List Nat)),
        (bs.getBlock tgtId).hasEntered = true →
        (bs.getBlock tgtId).isLoop = true →
        (bs.getBlock tgtId).hasLoopComplete = true →
        bs.processTargets ((tgtId, phis) :: rest) = none) ∧
    (∀ (bs : BlockStore) (tgtId : Nat) (phis : List Nat)
        (rest : List (Nat × List Nat)),
        (bs.getBlock tgtId).hasEntered = true →
        (bs.getBlock tgtId).isLoop = true →
        (bs.getBlock tgtId).hasLoopComplete = false →
        bs.processTargets ((tgtId, phis) :: rest)
          = (bs.modifyBlock tgtId Block.incrInputEdges).processTargets rest) ∧
    (∀ (bs : BlockStore) (send : List Nat → Option (List Nat × Nat))
        (targets : List (Nat × List Nat)) (bytes : List Nat) (sz : Nat),
        send bs.instrBytes = some (bytes, sz) →
        ((bs.emitEnd send targets).2 = EmitOutcome.fatal ↔
          bs.processTargets targets = none)) := by
  refine ⟨?_, ?_, ?_, ?_⟩
  · intro bs tgtId phis rest h1 h2
    simp only [BlockStore.processTargets]
    rw [if_pos (by simp [h1, h2])]
  · intro bs tgtId phis rest h1 h2 h3
    simp only [BlockStore.processTargets]
    rw [if_neg (by simp [h2]), if_pos (by simp [h1, h3])]
  · intro bs tgtId phis rest h1 h2 h3
    simp only [BlockStore.processTargets]
    rw [if_neg (by simp [h2]), if_neg (by simp [h3])]
  · intro bs send targets bytes sz hsend
    have hbytes : (bs.takeInstrNo bs.frontInstrPosn).1.instrBytes
        = bs.instrBytes := rfl
    have hstore : ({ (bs.takeInstrNo bs.frontInstrPosn).1 with
          instrBytes := bytes } : BlockStore)
        = { bs with
            instrBytes := bytes
            instrPosns := bs.instrPosns ++ [bs.frontInstrPosn] } := rfl
    simp only [BlockStore.emitEnd, hbytes, hsend, hstore,
      processTargets_ignores_instr_fields]
    cases h : bs.processTargets targets <;> simp

/-- Witness for C6: the entered non-loop start block of a fresh store is
rejected, a completed loop head is rejected, an entered incomplete loop
head is accepted, and `emit_end`'s outcome matches its validation. -/
theorem emit_end_backedge_validation_witness :
    BlockStore.new.processTargets [(0, [])] = none ∧
    completedLoopStore.processTargets [(1, [])] = none ∧
    enteredLoopStore.processTargets [(1, [])]
      = (enteredLoopStore.modifyBlock 1 Block.incrInputEdges).processTargets
          [] ∧
    ((BlockStore.new.emitEnd (fun b => some (b, 0)) [(0, [])]).2
        = EmitOutcome.fatal ↔
      BlockStore.new.processTargets [(0, [])] = none) :=
  ⟨emit_end_backedge_validation.1 BlockStore.new 0 [] [] (by decide)
      (by decide),
   emit_end_backedge_validation.2.1 completedLoopStore 1 [] [] (by decide)
      (by decide) (by decide),
   emit_end_backedge_validation.2.2.1 enteredLoopStore 1 [] [] (by decide)
      (by decide) (by decide),
   emit_end_backedge_validation.2.2.2 BlockStore.new (fun b => some (b, 0))
      [(0, [])] BlockStore.new.instrBytes 0 rfl⟩

/-! ## Claim C7 — reader traversal of the E1 start block -/

/-- Evaluation of `e1S1`. -/
theorem e1S1_eq :
    e1S1 = ({ instrBytes := [7, 0], maxLen := 0xffffff, numInstrs := 0 }, some 0) := by
  simp [e1S1, InstrStore.new, InstrStore.emitInstr, InstrStore.emitEnd, InstrStore.withinLimits,
    appendInstrImpl, appendTargetsImpl, Op.opcode, Op.payloadBytes,
    Opcode.toU8, constInt32Send, phiSend, cmpSend, CmpKind.toU8,
    biniSend, BiniKind.toU8, emptyPayloadSend, writeLeb128u_small]

/-- Evaluation of `e1S2`. -/
theorem e1S2_eq :
    e1S2 = ({ instrBytes := [7, 0, 7, 10], maxLen := 0xffffff, numInstrs := 0 }, some 2) := by
  simp [e1S2, e1S1_eq, InstrStore.emitInstr, InstrStore.emitEnd, InstrStore.withinLimits,
    appendInstrImpl, appendTargetsImpl, Op.opcode, Op.payloadBytes,
    Opcode.toU8, constInt32Send, phiSend, cmpSend, CmpKind.toU8,
    biniSend, BiniKind.toU8, emptyPayloadSend, writeLeb128u_small]

/-- Evaluation of `e1S3`. -/
theorem e1S3_eq :
    e1S3 = ({ instrBytes := [7, 0, 7, 10, 10, 5, 0, 2], maxLen := 0xffffff, numInstrs := 0 }, some 4) := by
  simp [e1S3, e1S2_eq, e1S1_eq, InstrStore.emitInstr, InstrStore.emitEnd, InstrStore.withinLimits,
    appendInstrImpl, appendTargetsImpl, Op.opcode, Op.payloadBytes,
    Opcode.toU8, constInt32Send, phiSend, cmpSend, CmpKind.toU8,
    biniSend, BiniKind.toU8, emptyPayloadSend, writeLeb128u_small]

/-- Evaluation of `e1S4`. -/
theorem e1S4_eq :
    e1S4 = ({ instrBytes := [7, 0, 7, 10, 10, 5, 0, 2, 21, 4, 1, 0, 2, 0], maxLen := 0xffffff, numInstrs := 0 }, some 8) := by
  simp [e1S4, e1S3_eq, InstrStore.emitInstr, InstrStore.emitEnd, InstrStore.withinLimits,
    appendInstrImpl, appendTargetsImpl, Op.opcode, Op.payloadBytes,
    Opcode.toU8, constInt32Send, phiSend, cmpSend, CmpKind.toU8,
    biniSend, BiniKind.toU8, emptyPayloadSend, writeLeb128u_small]

/-- Evaluation of `e1S5`. -/
theorem e1S5_eq :
    e1S5 = ({ instrBytes := [7, 0, 7, 10, 10, 5, 0, 2, 21, 4, 1, 0, 2, 0, 7, 1], maxLen := 0xffffff, numInstrs := 0 }, some 14) := by
  simp [e1S5, e1S4_eq, InstrStore.emitInstr, InstrStore.emitEnd, InstrStore.withinLimits,
    appendInstrImpl, appendTargetsImpl, Op.opcode, Op.payloadBytes,
    Opcode.toU8, constInt32Send, phiSend, cmpSend, CmpKind.toU8,
    biniSend, BiniKind.toU8, emptyPayloadSend, writeLeb128u_small]

/-- Evaluation of `e1S6`. -/
theorem e1S6_eq :
    e1S6 = ({ instrBytes := [7, 0, 7, 10, 10, 5, 0, 2, 21, 4, 1, 0, 2, 0, 7, 1, 14, 1, 0, 14], maxLen := 0xffffff, numInstrs := 0 }, some 16) := by
  simp [e1S6, e1S5_eq, e1S1_eq, InstrStore.emitInstr, InstrStore.emitEnd, InstrStore.withinLimits,
    appendInstrImpl, appendTargetsImpl, Op.opcode, Op.payloadBytes,
    Opcode.toU8, constInt32Send, phiSend, cmpSend, CmpKind.toU8,
    biniSend, BiniKind.toU8, emptyPayloadSend, writeLeb128u_small]

/-- Evaluation of `e1S7`. -/
theorem e1S7_eq :
    e1S7 = ({ instrBytes := [7, 0, 7, 10, 10, 5, 0, 2, 21, 4, 1, 0, 2, 0, 7, 1, 14, 1, 0, 14, 22, 3, 1, 16], maxLen := 0xffffff, numInstrs := 0 }, some 20) := by
  simp [e1S7, e1S6_eq, InstrStore.emitInstr, InstrStore.emitEnd, InstrStore.withinLimits,
    appendInstrImpl, appendTargetsImpl, Op.opcode, Op.payloadBytes,
    Opcode.toU8, constInt32Send, phiSend, cmpSend, CmpKind.toU8,
    biniSend, BiniKind.toU8, emptyPayloadSend, writeLeb128u_small]

/-- Evaluation of `e1S8`. -/
theorem e1S8_eq :
    e1S8 = ({ instrBytes := [7, 0, 7, 10, 10, 5, 0, 2, 21, 4, 1, 0, 2, 0, 7, 1, 14, 1, 0, 14, 22, 3, 1, 16, 14, 1, 0, 2], maxLen := 0xffffff, numInstrs := 0 }, some 24) := by
  simp [e1S8, e1S7_eq, e1S1_eq, e1S2_eq, InstrStore.emitInstr, InstrStore.emitEnd, InstrStore.withinLimits,
    appendInstrImpl, appendTargetsImpl, Op.opcode, Op.payloadBytes,
    Opcode.toU8, constInt32Send, phiSend, cmpSend, CmpKind.toU8,
    biniSend, BiniKind.toU8, emptyPayloadSend, writeLeb128u_small]

/-- Evaluation of `e1S9`. -/
theorem e1S9_eq :
    e1S9 = ({ instrBytes := [7, 0, 7, 10, 10, 5, 0, 2, 21, 4, 1, 0, 2, 0, 7, 1, 14, 1, 0, 14, 22, 3, 1, 16, 14, 1, 0, 2, 7, 9], maxLen := 0xffffff, numInstrs := 0 }, some 28) := by
  simp [e1S9, e1S8_eq, InstrStore.emitInstr, InstrStore.emitEnd, InstrStore.withinLimits,
    appendInstrImpl, appendTargetsImpl, Op.opcode, Op.payloadBytes,
    Opcode.toU8, constInt32Send, phiSend, cmpSend, CmpKind.toU8,
    biniSend, BiniKind.toU8, emptyPayloadSend, writeLeb128u_small]

/-- Evaluation of `e1S10`. -/
theorem e1S10_eq :
    e1S10 = ({ instrBytes := [7, 0, 7, 10, 10, 5, 0, 2, 21, 4, 1, 0, 2, 0, 7, 1, 14, 1, 0, 14, 22, 3, 1, 16, 14, 1, 0, 2, 7, 9, 10, 5, 24, 28], maxLen := 0xffffff, numInstrs := 0 }, some 30) := by
  simp [e1S10, e1S9_eq, e1S8_eq, InstrStore.emitInstr, InstrStore.emitEnd, InstrStore.withinLimits,
    appendInstrImpl, appendTargetsImpl, Op.opcode, Op.payloadBytes,
    Opcode.toU8, constInt32Send, phiSend, cmpSend, CmpKind.toU8,
    biniSend, BiniKind.toU8, emptyPayloadSend, writeLeb128u_small]

/-- Evaluation of `e1S11`. -/
theorem e1S11_eq :
    e1S11 = ({ instrBytes := [7, 0, 7, 10, 10, 5, 0, 2, 21, 4, 1, 0, 2, 0, 7, 1, 14, 1, 0, 14, 22, 3, 1, 16, 14, 1, 0, 2, 7, 9, 10, 5, 24, 28, 21, 30, 3, 1, 28, 5, 0], maxLen := 0xffffff, numInstrs := 0 }, some 34) := by
  simp [e1S11, e1S10_eq, e1S9_eq, InstrStore.emitInstr, InstrStore.emitEnd, InstrStore.withinLimits,
    appendInstrImpl, appendTargetsImpl, Op.opcode, Op.payloadBytes,
    Opcode.toU8, constInt32Send, phiSend, cmpSend, CmpKind.toU8,
    biniSend, BiniKind.toU8, emptyPayloadSend, writeLeb128u_small]

/-- Evaluation of `e1S12`. -/
theorem e1S12_eq :
    e1S12 = ({ instrBytes := [7, 0, 7, 10, 10, 5, 0, 2, 21, 4, 1, 0, 2, 0, 7, 1, 14, 1, 0, 14, 22, 3, 1, 16, 14, 1, 0, 2, 7, 9, 10, 5, 24, 28, 21, 30, 3, 1, 28, 5, 0, 7, 1], maxLen := 0xffffff, numInstrs := 0 }, some 41) := by
  simp [e1S12, e1S11_eq, InstrStore.emitInstr, InstrStore.emitEnd, InstrStore.withinLimits,
    appendInstrImpl, appendTargetsImpl, Op.opcode, Op.payloadBytes,
    Opcode.toU8, constInt32Send, phiSend, cmpSend, CmpKind.toU8,
    biniSend, BiniKind.toU8, emptyPayloadSend, writeLeb128u_small]

/-- Evaluation of `e1S13`. -/
theorem e1S13_eq :
    e1S13 = ({ instrBytes := [7, 0, 7, 10, 10, 5, 0, 2, 21, 4, 1, 0, 2, 0, 7, 1, 14, 1, 0, 14, 22, 3, 1, 16, 14, 1, 0, 2, 7, 9, 10, 5, 24, 28, 21, 30, 3, 1, 28, 5, 0, 7, 1, 14, 1, 28, 41], maxLen := 0xffffff, numInstrs := 0 }, some 43) := by
  simp [e1S13, e1S12_eq, e1S9_eq, InstrStore.emitInstr, InstrStore.emitEnd, InstrStore.withinLimits,
    appendInstrImpl, appendTargetsImpl, Op.opcode, Op.payloadBytes,
    Opcode.toU8, constInt32Send, phiSend, cmpSend, CmpKind.toU8,
    biniSend, BiniKind.toU8, emptyPayloadSend, writeLeb128u_small]

/-- Evaluation of `e1S14`. -/
theorem e1S14_eq :
    e1S14 = ({ instrBytes := [7, 0, 7, 10, 10, 5, 0, 2, 21, 4, 1, 0, 2, 0, 7, 1, 14, 1, 0, 14, 22, 3, 1, 16, 14, 1, 0, 2, 7, 9, 10, 5, 24, 28, 21, 30, 3, 1, 28, 5, 0, 7, 1, 14, 1, 28, 41, 22, 4, 1, 43], maxLen := 0xffffff, numInstrs := 0 }, some 47) := by
  simp [e1S14, e1S13_eq, InstrStore.emitInstr, InstrStore.emitEnd, InstrStore.withinLimits,
    appendInstrImpl, appendTargetsImpl, Op.opcode, Op.payloadBytes,
    Opcode.toU8, constInt32Send, phiSend, cmpSend, CmpKind.toU8,
    biniSend, BiniKind.toU8, emptyPayloadSend, writeLeb128u_small]

/-- Evaluation of `e1S15`. -/
theorem e1S15_eq :
    e1S15 = ({ instrBytes := [7, 0, 7, 10, 10, 5, 0, 2, 21, 4, 1, 0, 2, 0, 7, 1, 14, 1, 0, 14, 22, 3, 1, 16, 14, 1, 0, 2, 7, 9, 10, 5, 24, 28, 21, 30, 3, 1, 28, 5, 0, 7, 1, 14, 1, 28, 41, 22, 4, 1, 43, 3, 0], maxLen := 0xffffff, numInstrs := 0 }, some 51) := by
  simp [e1S15, e1S14_eq, InstrStore.emitInstr, InstrStore.emitEnd, InstrStore.withinLimits,
    appendInstrImpl, appendTargetsImpl, Op.opcode, Op.payloadBytes,
    Opcode.toU8, constInt32Send, phiSend, cmpSend, CmpKind.toU8,
    biniSend, BiniKind.toU8, emptyPayloadSend, writeLeb128u_small]

/-- Evaluation of `e1S16`. -/
theorem e1S16_eq :
    e1S16 = ({ instrBytes := [7, 0, 7, 10, 10, 5, 0, 2, 21, 4, 1, 0, 2, 0, 7, 1, 14, 1, 0, 14, 22, 3, 1, 16, 14, 1, 0, 2, 7, 9, 10, 5, 24, 28, 21, 30, 3, 1, 28, 5, 0, 7, 1, 14, 1, 28, 41, 22, 4, 1, 43, 3, 0, 22, 4, 1, 51], maxLen := 0xffffff, numInstrs := 0 }, some 53) := by
  simp [e1S16, e1S15_eq, InstrStore.emitInstr, InstrStore.emitEnd, InstrStore.withinLimits,
    appendInstrImpl, appendTargetsImpl, Op.opcode, Op.payloadBytes,
    Opcode.toU8, constInt32Send, phiSend, cmpSend, CmpKind.toU8,
    biniSend, BiniKind.toU8, emptyPayloadSend, writeLeb128u_small]

/-- Evaluation of `e1S17`. -/
theorem e1S17_eq :
    e1S17 = ({ instrBytes := [7, 0, 7, 10, 10, 5, 0, 2, 21, 4, 1, 0, 2, 0, 7, 1, 14, 1, 0, 14, 22, 3, 1, 16, 14, 1, 0, 2, 7, 9, 10, 5, 24, 28, 21, 30, 3, 1, 28, 5, 0, 7, 1, 14, 1, 28, 41, 22, 4, 1, 43, 3, 0, 22, 4, 1, 51, 3, 1], maxLen := 0xffffff, numInstrs := 0 }, some 57) := by
  simp [e1S17, e1S16_eq, InstrStore.emitInstr, InstrStore.emitEnd, InstrStore.withinLimits,
    appendInstrImpl, appendTargetsImpl, Op.opcode, Op.payloadBytes,
    Opcode.toU8, constInt32Send, phiSend, cmpSend, CmpKind.toU8,
    biniSend, BiniKind.toU8, emptyPayloadSend, writeLeb128u_small]

/-- Evaluation of `e1S18`. -/
theorem e1S18_eq :
    e1S18 = ({ instrBytes := [7, 0, 7, 10, 10, 5, 0, 2, 21, 4, 1, 0, 2, 0, 7, 1, 14, 1, 0, 14, 22, 3, 1, 16, 14, 1, 0, 2, 7, 9, 10, 5, 24, 28, 21, 30, 3, 1, 28, 5, 0, 7, 1, 14, 1, 28, 41, 22, 4, 1, 43, 3, 0, 22, 4, 1, 51, 3, 1, 18, 57], maxLen := 0xffffff, numInstrs := 0 }, some 59) := by
  simp [e1S18, e1S17_eq, InstrStore.emitInstr, InstrStore.emitEnd, InstrStore.withinLimits,
    appendInstrImpl, appendTargetsImpl, Op.opcode, Op.payloadBytes,
    Opcode.toU8, constInt32Send, phiSend, cmpSend, CmpKind.toU8,
    biniSend, BiniKind.toU8, emptyPayloadSend, writeLeb128u_small]

/-- The E1 instruction stream, fully evaluated.  The start block occupies
offsets 0, 2, 4 and 8 (ConstInt32, ConstInt32, CmpInt32 Eq, Branch). -/
theorem e1Stream_bytes :
    e1Stream = [7, 0, 7, 10, 10, 5, 0, 2, 21, 4, 1, 0, 2, 0, 7, 1, 14, 1, 0,
      14, 22, 3, 1, 16, 14, 1, 0, 2, 7, 9, 10, 5, 24, 28, 21, 30, 3, 1, 28,
      5, 0, 7, 1, 14, 1, 28, 41, 22, 4, 1, 43, 3, 0, 22, 4, 1, 51, 3, 1, 18,
      57] := by
  simp [e1Stream, e1S18_eq]

/-- C7: reading the built E1 graph from the start block's first
instruction (offset 0, recorded when the start block was entered at
stream front), the cursor decodes opcodes in exactly the emission order
ConstInt32, ConstInt32, CmpInt32, Branch, and at the Branch — a terminal
— `next_defn` yields none. -/
theorem e1_reader_traversal :
    (BlockStore.new.getBlock 0).firstInstr = 0 ∧
    sessionOpcodes e1Stream 0 10
      = [Opcode.constInt32, Opcode.constInt32, Opcode.cmpInt32,
         Opcode.branch] ∧
    (readInstrInfo e1Stream 8).map (fun info => info.op.terminal)
      = some true ∧
    (readInstrInfo e1Stream 8).map InstrInfo.nextDefn = some none := by
  rw [e1Stream_bytes]
  decide

/-! ## Claim C8 — RPO rank and declaration order -/

/-- C8: entering a block assigns it an RPO rank equal to the number of
blocks entered before it (the length of the RPO index, which the entered
block is then appended to), so ranks strictly increase with enter order;
a session's successful `def_block` runs enter exactly the next declared
blocks of its sub-region in declaration order; and closing a subgraph
adopts the child's final current block into the parent without touching
the block store (the adopted block is not re-entered). -/
theorem rpo_rank_and_decl_order :
    (∀ (bs : BlockStore) (id : Nat),
        (bs.enterBlock id).rpoIndex = bs.rpoIndex ++ [id] ∧
        (id < bs.declBlocks.length →
          ((bs.enterBlock id).getBlock id).order = bs.rpoIndex.length)) ∧
    (∀ (bld : Builder) (s : Session) (bsList : List Nat)
        (r : Builder × Session),
        runDefBlocks bld s bsList = some r →
        bsList = (bld.subgraphDecls.drop
          (s.subgraphStart + s.subgraphEntered)).take bsList.length) ∧
    (∀ (bld : Builder) (s : Session)
        (f : Builder → Session → Option (Builder × Session))
        (bld' : Builder) (s' : Session),
        defSubgraph bld s f = some (bld', s') →
        ∃ child', f bld (Session.new bld s.curBlock) = some (bld', child') ∧
          s' = { s with curBlock := child'.curBlock }) := by
  refine ⟨?_, ?_, ?_⟩
  · intro bs id
    constructor
    · rfl
    · intro h
      simp [BlockStore.enterBlock, BlockStore.modifyBlock, BlockStore.getBlock,
        List.getD, List.getElem?_set_self, h, Block.setEntered]
  · intro bld s bsList
    induction bsList generalizing bld s with
    | nil =>
      intro r _
      rfl
    | cons b rest ih =>
      intro r hr
      simp only [runDefBlocks] at hr
      cases hdb : defBlockImpl (finishCur bld) s b with
      | none =>
        rw [hdb] at hr
        cases hr
      | some p =>
        rw [hdb] at hr
        obtain ⟨bld1, s1⟩ := p
        unfold defBlockImpl at hdb
        by_cases hfin :
            (((finishCur bld).blockStore.getBlock s.curBlock).hasFinished
              : Bool) = false
        · rw [if_pos (by simp [hfin])] at hdb
          cases hdb
        · rw [if_neg (by simpa using hfin)] at hdb
          by_cases hnext : nextSpecBlock (finishCur bld) s = some b
          · rw [if_neg (by simpa using hnext)] at hdb
            injection hdb with hdb
            have hbld1 : bld1.subgraphDecls = bld.subgraphDecls := by
              have : bld1 = { finishCur bld with
                  blockStore := (finishCur bld).blockStore.enterBlock b } := by
                have := congrArg Prod.fst hdb
                simpa using this.symm
              rw [this]
              rfl
            have hs1 : s1 = { s with
                curBlock := b
                subgraphEntered := s.subgraphEntered + 1 } := by
              have := congrArg Prod.snd hdb
              simpa using this.symm
            have hrest := ih bld1 s1 r hr
            have hget : bld.subgraphDecls[s.subgraphStart
                + s.subgraphEntered]? = some b := hnext
            obtain ⟨hlt, he⟩ := List.getElem?_eq_some_iff.mp hget
            have hdrop : bld.subgraphDecls.drop
                (s.subgraphStart + s.subgraphEntered)
                = b :: bld.subgraphDecls.drop
                    (s.subgraphStart + s.subgraphEntered + 1) := by
              rw [List.drop_eq_getElem_cons hlt, he]
            have hrest2 : rest = (bld.subgraphDecls.drop
                (s.subgraphStart + s.subgraphEntered + 1)).take rest.length := by
              rw [← hbld1]
              rw [hs1] at hrest
              simpa [Nat.add_assoc] using hrest
            rw [hdrop, List.length_cons, List.take_succ_cons, ← hrest2]
          · rw [if_pos (by simpa using hnext)] at hdb
            cases hdb
  · intro bld s f bld' s' h
    simp only [defSubgraph] at h
    cases hf : f bld (Session.new bld s.curBlock) with
    | none =>
      rw [hf] at h
      cases h
    | some p =>
      obtain ⟨bld2, child'⟩ := p
      rw [hf] at h
      by_cases hc : assertComplete bld2 child'
      · have h' : some ((bld2 : Builder),
            ({ s with curBlock := child'.curBlock } : Session))
            = some (bld', s') := by
          simpa [hc] using h
        have h2 := Option.some.inj h'
        have hb : bld2 = bld' := congrArg Prod.fst h2
        have hs : ({ s with curBlock := child'.curBlock } : Session) = s' :=
          congrArg Prod.snd h2
        exact ⟨child', by rw [hb], hs.symm⟩
      · simp [hc] at h

/-- Witness for C8 at a two-block builder: the run defining blocks 1 then
2 succeeds and the defined sequence is exactly the declared sub-region
segment. -/
theorem rpo_rank_and_decl_order_witness :
    [1, 2] = (twoBlockBuilder.subgraphDecls.drop
      (twoBlockSession.subgraphStart
        + twoBlockSession.subgraphEntered)).take [1, 2].length :=
  rpo_rank_and_decl_order.2.1 twoBlockBuilder twoBlockSession [1, 2]
    ((runDefBlocks twoBlockBuilder twoBlockSession [1, 2]).getD
      (Builder.new, twoBlockSession))
    (by decide)

end CogIr
